import Mathlib

/-!
Verification of the document-extraction and analysis layer of
`resume_analyser.py`.

Modelling conventions:
* A Python `str` is modelled as `List Char` (a sequence of Unicode code
  points); raw bytes are modelled as `List Nat` with values below 256.
* Python truthiness of a string (`if s:`) is non-emptiness of the list.
* `str.strip()` is modelled by `pyStrip` below (drop whitespace from both
  ends).
* Python exceptions are modelled with `Option`/`Except`: a raising call
  returns `none`/`.error`.
* The external generative-model service is an explicit function parameter;
  its response object is the parametric structure `GenAIResponse`, so the
  embedded code cannot inspect the metadata it carries.
-/

/-- Whitespace predicate used to model Python `str.strip()` (ASCII
whitespace characters stripped by CPython). -/
def pyIsSpace (c : Char) : Bool :=
  c == ' ' || c == '\t' || c == '\n' || c == '\r' || c == '\x0b' || c == '\x0c'

/-- Model of Python `str.strip()`: remove leading and trailing whitespace. -/
def pyStrip (s : List Char) : List Char :=
  ((s.dropWhile pyIsSpace).reverse.dropWhile pyIsSpace).reverse

/-! ## Text extractor (source lines 34-49) -/

/-- Model of `read_pdf` (source lines 34-40).  A parsed PDF is its list of
pages; `page.extract_text()` yields `some t` or `none` (Python `None`).
The source accumulates `text += page.extract_text() or ""`. -/
def read_pdf (pages : List (Option (List Char))) : List Char :=
  pages.foldl (fun text page => text ++ page.getD []) []

/-- Model of `read_docx` (source lines 42-45).  A parsed document is its
list of paragraph texts; the source keeps the truthy (non-empty) ones and
joins them with a newline:
`"\n".join([paragraph.text for paragraph in doc.paragraphs if paragraph.text])`. -/
def read_docx (paragraphs : List (List Char)) : List Char :=
  List.intercalate ['\n'] (paragraphs.filter (fun p => !p.isEmpty))

/-- Variant of `read_docx` following the spec's words instead of the
source: paragraphs are kept when their text is non-empty AFTER TRIMMING
whitespace.  Used to compare spec and source behaviour. -/
def read_docx_specTrim (paragraphs : List (List Char)) : List Char :=
  List.intercalate ['\n'] (paragraphs.filter (fun p => !(pyStrip p).isEmpty))

/-! ## UTF-8 decoding, for `read_txt` (source lines 47-49)

The source decodes the uploaded bytes with Python's strict UTF-8 decoder
(`file.read().decode("utf-8")`), which raises `UnicodeDecodeError` on any
invalid byte sequence.  `utf8DecodeOne` consumes one scalar value from the
front of the byte list, rejecting stray continuation bytes, overlong
encodings, surrogate code points and values above U+10FFFF, exactly as
CPython's strict decoder does. -/

/-- Unicode scalar values: the code points a strict UTF-8 decoder may
produce (no surrogates, at most U+10FFFF). -/
def IsScalar (c : Nat) : Prop :=
  c < 0xD800 ∨ (0xE000 ≤ c ∧ c < 0x110000)

/-- Standard UTF-8 encoding of one scalar value. -/
def utf8EncodeChar (c : Nat) : List Nat :=
  if c < 0x80 then [c]
  else if c < 0x800 then [0xC0 + c / 64, 0x80 + c % 64]
  else if c < 0x10000 then [0xE0 + c / 4096, 0x80 + c / 64 % 64, 0x80 + c % 64]
  else [0xF0 + c / 262144, 0x80 + c / 4096 % 64, 0x80 + c / 64 % 64, 0x80 + c % 64]

/-- Standard UTF-8 encoding of a sequence of scalar values. -/
def utf8Encode : List Nat → List Nat
  | [] => []
  | c :: cs => utf8EncodeChar c ++ utf8Encode cs

/-- A byte sequence is valid UTF-8 when it is the encoding of some
sequence of scalar values. -/
def ValidUtf8 (bs : List Nat) : Prop :=
  ∃ s, (∀ c ∈ s, IsScalar c) ∧ utf8Encode s = bs

/-- Strict UTF-8 decoding of a single scalar value from the front of a
byte list; returns the decoded code point and the remaining bytes, or
`none` when the input does not start with a valid encoding. -/
def utf8DecodeOne (bs : List Nat) : Option (Nat × List Nat) :=
  match bs with
  | [] => none
  | b0 :: tl =>
    if b0 < 0x80 then some (b0, tl)
    else if b0 < 0xC0 then none
    else if b0 < 0xE0 then
      match tl with
      | b1 :: tl1 =>
        if 0x80 ≤ b1 ∧ b1 < 0xC0 ∧ 0x80 ≤ (b0 - 0xC0) * 64 + (b1 - 0x80) then
          some ((b0 - 0xC0) * 64 + (b1 - 0x80), tl1)
        else none
      | [] => none
    else if b0 < 0xF0 then
      match tl with
      | b1 :: b2 :: tl2 =>
        if 0x80 ≤ b1 ∧ b1 < 0xC0 ∧ 0x80 ≤ b2 ∧ b2 < 0xC0 ∧
            0x800 ≤ (b0 - 0xE0) * 4096 + (b1 - 0x80) * 64 + (b2 - 0x80) ∧
            ((b0 - 0xE0) * 4096 + (b1 - 0x80) * 64 + (b2 - 0x80) < 0xD800 ∨
              0xE000 ≤ (b0 - 0xE0) * 4096 + (b1 - 0x80) * 64 + (b2 - 0x80)) then
          some ((b0 - 0xE0) * 4096 + (b1 - 0x80) * 64 + (b2 - 0x80), tl2)
        else none
      | _ => none
    else if b0 < 0xF5 then
      match tl with
      | b1 :: b2 :: b3 :: tl3 =>
        if 0x80 ≤ b1 ∧ b1 < 0xC0 ∧ 0x80 ≤ b2 ∧ b2 < 0xC0 ∧ 0x80 ≤ b3 ∧ b3 < 0xC0 ∧
            0x10000 ≤ (b0 - 0xF0) * 262144 + (b1 - 0x80) * 4096 + (b2 - 0x80) * 64 + (b3 - 0x80) ∧
            (b0 - 0xF0) * 262144 + (b1 - 0x80) * 4096 + (b2 - 0x80) * 64 + (b3 - 0x80) < 0x110000 then
          some ((b0 - 0xF0) * 262144 + (b1 - 0x80) * 4096 + (b2 - 0x80) * 64 + (b3 - 0x80), tl3)
        else none
      | _ => none
    else none

/-- Fuel-indexed strict UTF-8 decoder: decodes scalar values one at a
time.  The fuel only bounds the number of decoded characters; it is set to
the byte length in `utf8Decode`, which always suffices. -/
def utf8DecodeAux : Nat → List Nat → Option (List Nat)
  | _, [] => some []
  | 0, _ :: _ => none
  | fuel + 1, b :: bs =>
    match utf8DecodeOne (b :: bs) with
    | none => none
    | some (c, rest) => (utf8DecodeAux fuel rest).map (fun s => c :: s)

/-- Strict UTF-8 decoding of a whole byte sequence, as performed by
Python's `bytes.decode("utf-8")`; `none` models `UnicodeDecodeError`. -/
def utf8Decode (bs : List Nat) : Option (List Nat) :=
  utf8DecodeAux bs.length bs

/-- Model of `read_txt` (source lines 47-49):
`file.read().decode("utf-8")`, result as code points; `none` models the
`UnicodeDecodeError` raised on invalid input. -/
def read_txt (file : List Nat) : Option (List Nat) :=
  utf8Decode file

/-! ## Upload dispatch and preview (source lines 200-228) -/

/-- Model of the uploaded file at the dispatch point (source lines
218-225).  `type` is the declared media type; the three views are what
each of the three parsers would produce from the file's bytes (the
dispatch consults only `type`, never the content). -/
structure UploadedFile where
  type : List Char
  pdfPages : List (Option (List Char))
  docxParagraphs : List (List Char)
  txtBytes : List Nat

/-- Model of the extraction dispatch (source lines 200-225): `resume_text`
starts as `""`, then exactly one reader is selected by the declared type;
an unrecognized type leaves `resume_text` empty.  `none` models an
exception escaping from a reader (caught at source line 230). -/
def extract_resume_text (f : UploadedFile) : Option (List Char) :=
  if f.type = "application/pdf".data then
    some (read_pdf f.pdfPages)
  else if f.type = "application/vnd.openxmlformats-officedocument.wordprocessingml.document".data then
    some (read_docx f.docxParagraphs)
  else if f.type = "text/plain".data then
    (read_txt f.txtBytes).map (fun cps => cps.map Char.ofNat)
  else
    some []

/-- Model of the preview expander content (source lines 227-228):
`resume_text[:2000] + ("..." if len(resume_text) > 2000 else "")`. -/
def preview (resume_text : List Char) : List Char :=
  resume_text.take 2000 ++ (if resume_text.length > 2000 then "...".data else [])

/-! ## Analysis request builder (source lines 52-75) -/

/-- Constant part of the prompt template before the job description
(source lines 54-64). -/
def promptHead : List Char :=
  "\n    You are an expert resume analysis AI. Analyze this resume against the job description and provide:\n\n    1. Match Score (1-100%)\n    2. Key Strengths (3-5 bullet points)\n    3. Missing Keywords/Skills (3-5 bullet points)\n    4. Areas for Improvement (2-3 actionable suggestions)\n    5. Professional Summary\n    6. Selection Chance Assessment (Low/Moderate/High/Very High)\n\n    Job Description:\n    ".data

/-- Constant part of the prompt template between the job description and
the resume (source lines 65-68). -/
def promptMid : List Char :=
  "\n\n    Resume:\n    ".data

/-- Constant part of the prompt template after the resume (source lines
68-71). -/
def promptTail : List Char :=
  "\n\n    Be concise, professional, and brutally honest.\n    ".data

/-- Model of the `analysis_prompt` f-string of `get_resume_analysis`
(source lines 54-71): the fixed template with both inputs interpolated
verbatim. -/
def analysis_prompt (job_description resume_text : List Char) : List Char :=
  promptHead ++ job_description ++ promptMid ++ resume_text ++ promptTail

/-- Model of the response object returned by the external service
(`model.generate_content`).  `F` and `C` are the (opaque) types of the
prompt-feedback metadata and of candidate entries. -/
structure GenAIResponse (F C : Type) where
  text : List Char
  prompt_feedback : F
  candidates : List C

/-- Model of `get_resume_analysis` (source lines 52-75): build the prompt,
call the external service exactly once, and return
`(response.text, response.prompt_feedback, response.candidates)`.
A service failure (`.error`) propagates, as the Python exception does. -/
def get_resume_analysis {ε F C : Type} (generate_content : List Char → Except ε (GenAIResponse F C))
    (job_description resume_text : List Char) : Except ε (List Char × F × List C) :=
  (generate_content (analysis_prompt job_description resume_text)).map
    (fun response => (response.text, response.prompt_feedback, response.candidates))

/-! ## Analyze-button handler (source lines 243-267) -/

/-- State of the two user inputs at the moment the analyze button is
clicked. -/
structure AppState where
  job_description : List Char
  resume_text : List Char

/-- What the handler renders after the click. -/
inductive Display (F C : Type) where
  | warning (msg : List Char)
  | success (analysis : List Char) (feedback : F) (candidates : List C)
  | failure (msg : List Char)
deriving DecidableEq

/-- Model of the analyze-button handler (source lines 243-267): validate
the two fields (`if not job_description.strip(): ... elif not
resume_text.strip(): ...`), then call `get_resume_analysis` inside
try/except.  The result is the rendered display, the state after the
click (the handler never writes the inputs), and the number of external
service calls made. -/
def analyze_click {F C : Type} (generate_content : List Char → Except (List Char) (GenAIResponse F C))
    (s : AppState) : Display F C × AppState × Nat :=
  if (pyStrip s.job_description).isEmpty then
    (.warning "Please provide a job description".data, s, 0)
  else if (pyStrip s.resume_text).isEmpty then
    (.warning "Please provide your resume".data, s, 0)
  else
    match get_resume_analysis generate_content s.job_description s.resume_text with
    | .ok (analysis, feedback, candidates) => (.success analysis feedback candidates, s, 1)
    | .error e => (.failure ("Analysis failed: ".data ++ e), s, 1)

/-! ## Helper lemmas -/

/-- Boolean test that the first list is an initial segment of the second. -/
def leadsWith : List Char → List Char → Bool
  | [], _ => true
  | _ :: _, [] => false
  | a :: as, b :: bs => a == b && leadsWith as bs

/-- Boolean test that the first list occurs contiguously inside the
second. -/
def occursIn (pat : List Char) : List Char → Bool
  | [] => pat.isEmpty
  | c :: tl => leadsWith pat (c :: tl) || occursIn pat tl


/-- Accumulator form of `read_pdf`'s fold: the fold concatenates the page
texts after the accumulator. -/
theorem read_pdf_foldl_eq (pages : List (Option (List Char))) (acc : List Char) :
    pages.foldl (fun text page => text ++ page.getD []) acc =
      acc ++ (pages.map (fun p => p.getD [])).flatten := by
  induction pages generalizing acc with
  | nil => simp
  | cons p ps ih => simp [ih, List.append_assoc]

/-! ## Claims about the text extractor -/

/-- C1 (counterexample): `read_docx` does NOT skip every paragraph that is
empty after trimming — a whitespace-only paragraph is truthy in Python and
is kept, so on paragraphs `["Hello", " ", "World"]` the source disagrees
with the spec's trimming description and returns `"Hello\n \nWorld"`. -/
theorem read_docx_trim_counterexample :
    read_docx ["Hello".data, " ".data, "World".data] ≠
      read_docx_specTrim ["Hello".data, " ".data, "World".data] ∧
    read_docx ["Hello".data, " ".data, "World".data] = "Hello\n \nWorld".data ∧
    read_docx_specTrim ["Hello".data, " ".data, "World".data] = "Hello\nWorld".data := by
  refine ⟨by decide, by decide, by decide⟩

/-- C1 (amended): `read_docx` returns the texts of exactly those
paragraphs that are non-empty (whitespace-only paragraphs are kept),
joined with a single newline between them in the original paragraph
order; in particular, for paragraphs `["Hello", "", "World"]` it returns
`"Hello\nWorld"`. -/
theorem read_docx_joins_nonempty_paragraphs :
    (∀ paragraphs : List (List Char),
      read_docx paragraphs = List.intercalate ['\n'] (paragraphs.filter (fun p => p ≠ []))) ∧
    read_docx ["Hello".data, [], "World".data] = "Hello\nWorld".data := by
  constructor
  · intro paragraphs
    unfold read_docx
    congr 1
    apply List.filter_congr
    intro p _
    cases p <;> simp
  · decide

/-- C3: `read_pdf` returns the concatenation of the page texts in page
order with no added separator, a page without extractable text (`none`)
contributing the empty string; in particular a 3-page document whose
middle page yields no text produces page 1's text immediately followed by
page 3's text. -/
theorem read_pdf_concat :
    (∀ pages, read_pdf pages = (pages.map (fun p => p.getD [])).flatten) ∧
    (∀ p1 p3 : List Char, read_pdf [some p1, none, some p3] = p1 ++ p3) := by
  constructor
  · intro pages
    simpa using read_pdf_foldl_eq pages []
  · intro p1 p3
    simp [read_pdf]

/-- C4: when the declared media type of the uploaded file is none of the
three supported kinds, the extraction dispatch calls no reader and the
resume text stays the empty string (no error is raised). -/
theorem extract_unrecognized_type (f : UploadedFile)
    (h1 : f.type ≠ "application/pdf".data)
    (h2 : f.type ≠ "application/vnd.openxmlformats-officedocument.wordprocessingml.document".data)
    (h3 : f.type ≠ "text/plain".data) :
    extract_resume_text f = some [] := by
  simp [extract_resume_text, h1, h2, h3]

/-- C4 (witness): a PNG upload with non-trivial content in every view —
including bytes that are not valid UTF-8 — still extracts to the empty
string, so no reader was consulted. -/
theorem extract_unrecognized_type_witness :
    extract_resume_text ⟨"image/png".data, [some "x".data], ["y".data], [0xFF]⟩ = some [] :=
  extract_unrecognized_type ⟨"image/png".data, [some "x".data], ["y".data], [0xFF]⟩
    (by decide) (by decide) (by decide)

/-- C10: the upload preview is the first 2000 characters of the extracted
text, with `"..."` appended exactly when the text is strictly longer than
2000 characters; text of length at most 2000 is shown in full with no
suffix. -/
theorem preview_first_2000 (t : List Char) :
    (t.length ≤ 2000 → preview t = t) ∧
    (2000 < t.length → preview t = t.take 2000 ++ "...".data) := by
  constructor
  · intro h
    rw [preview, if_neg (by omega)]
    simp [List.take_of_length_le h]
  · intro h
    rw [preview, if_pos (by omega)]

/-- C10 (witness): a short text is previewed in full, with no suffix. -/
theorem preview_first_2000_witness :
    preview "abc".data = "abc".data :=
  (preview_first_2000 "abc".data).1 (by decide)

/-! ## Claims about the analysis request builder and button handler -/

set_option maxRecDepth 100000 in
/-- C7: the prompt built by `get_resume_analysis` is one fixed template
with the two inputs substituted verbatim: it decomposes as constant text,
then the job description, constant text, the resume, constant text; both
inputs occur contiguously in the prompt, and the constant head contains
the six fixed deliverable instructions. -/
theorem analysis_prompt_template (jd rt : List Char) :
    analysis_prompt jd rt = promptHead ++ jd ++ promptMid ++ rt ++ promptTail ∧
    (∃ u v, u ++ jd ++ v = analysis_prompt jd rt) ∧
    (∃ u v, u ++ rt ++ v = analysis_prompt jd rt) ∧
    occursIn "1. Match Score (1-100%)".data promptHead = true ∧
    occursIn "2. Key Strengths (3-5 bullet points)".data promptHead = true ∧
    occursIn "3. Missing Keywords/Skills (3-5 bullet points)".data promptHead = true ∧
    occursIn "4. Areas for Improvement (2-3 actionable suggestions)".data promptHead = true ∧
    occursIn "5. Professional Summary".data promptHead = true ∧
    occursIn "6. Selection Chance Assessment (Low/Moderate/High/Very High)".data promptHead = true := by
  refine ⟨rfl, ⟨promptHead, promptMid ++ rt ++ promptTail, by
      simp [analysis_prompt, List.append_assoc]⟩,
    ⟨promptHead ++ jd ++ promptMid, promptTail, by
      simp [analysis_prompt, List.append_assoc]⟩,
    by decide, by decide, by decide, by decide, by decide, by decide⟩

/-- C8: `get_resume_analysis` passes the external model's response
through unmodified — whenever the service yields a response, the
operation returns exactly that response's raw text together with its
prompt feedback and candidates, with no processing of any component. -/
theorem get_resume_analysis_passthrough {ε F C : Type}
    (generate_content : List Char → Except ε (GenAIResponse F C))
    (jd rt : List Char) (r : GenAIResponse F C)
    (h : generate_content (analysis_prompt jd rt) = .ok r) :
    get_resume_analysis generate_content jd rt = .ok (r.text, r.prompt_feedback, r.candidates) := by
  simp [get_resume_analysis, h, Except.map]

/-- C8 (witness): a concrete service response is returned verbatim. -/
theorem get_resume_analysis_passthrough_witness :
    get_resume_analysis
        (fun _ => Except.ok (⟨"out".data, 7, [5]⟩ : GenAIResponse Nat Nat) :
          List Char → Except (List Char) (GenAIResponse Nat Nat))
        "j".data "r".data = .ok ("out".data, 7, [5]) :=
  get_resume_analysis_passthrough _ "j".data "r".data ⟨"out".data, 7, [5]⟩ rfl

/-- C2: the analyze handler validates before building: whenever either
field is empty after stripping, it warns and performs zero service calls,
and its behaviour does not depend on the service at all (the builder is
not exercised); conversely any click that performed a service call had
both fields non-empty after stripping. -/
theorem analyze_click_validates {F C : Type}
    (g g' : List Char → Except (List Char) (GenAIResponse F C)) (s : AppState) :
    (((pyStrip s.job_description).isEmpty = true ∨ (pyStrip s.resume_text).isEmpty = true) →
      (∃ msg, (analyze_click g s).1 = Display.warning msg) ∧
      (analyze_click g s).2.2 = 0 ∧
      analyze_click g s = analyze_click g' s) ∧
    ((analyze_click g s).2.2 ≠ 0 →
      (pyStrip s.job_description).isEmpty = false ∧ (pyStrip s.resume_text).isEmpty = false) := by
  by_cases hj : (pyStrip s.job_description).isEmpty
  · simp [analyze_click, hj]
  · by_cases hr : (pyStrip s.resume_text).isEmpty
    · simp [analyze_click, hj, hr]
    · simp only [Bool.not_eq_true] at hj hr
      constructor
      · intro h
        rcases h with h | h
        · simp [h] at hj
        · simp [h] at hr
      · intro _
        exact ⟨hj, hr⟩

/-- C2 (witness): with a whitespace-only job description the click warns,
makes no service call, and is identical for two different services. -/
theorem analyze_click_validates_witness :
    (analyze_click (F := Nat) (C := Nat) (fun _ => Except.error "boom".data)
        ⟨" ".data, "resume".data⟩).2.2 = 0 :=
  (((analyze_click_validates (fun _ => Except.error "boom".data)
      (fun _ => Except.error "other".data) ⟨" ".data, "resume".data⟩).1)
    (Or.inl (by decide))).2.1

/-- C9: when the external service call fails (any raised error, with both
inputs valid), the handler renders the failure as the user-visible
message `"Analysis failed: ..."`, leaves the job description and resume
text unchanged, and makes exactly one service call (no retry). -/
theorem analyze_click_error_handling {F C : Type}
    (g : List Char → Except (List Char) (GenAIResponse F C)) (s : AppState) (e : List Char)
    (hj : (pyStrip s.job_description).isEmpty = false)
    (hr : (pyStrip s.resume_text).isEmpty = false)
    (hg : g (analysis_prompt s.job_description s.resume_text) = .error e) :
    analyze_click g s = (.failure ("Analysis failed: ".data ++ e), s, 1) := by
  simp [analyze_click, hj, hr, get_resume_analysis, hg, Except.map]

/-- C9 (witness): a concrete transport failure surfaces as the failure
message with the state returned unchanged after one call. -/
theorem analyze_click_error_handling_witness :
    analyze_click (F := Nat) (C := Nat) (fun _ => Except.error "boom".data)
        ⟨"jd".data, "cv".data⟩ =
      (.failure ("Analysis failed: ".data ++ "boom".data), ⟨"jd".data, "cv".data⟩, 1) :=
  analyze_click_error_handling (fun _ => Except.error "boom".data)
    ⟨"jd".data, "cv".data⟩ "boom".data (by decide) (by decide) rfl

/-! ## UTF-8 round-trip lemmas -/

/-- Soundness of the one-character decoder: a successful decode consumed
exactly the UTF-8 encoding of the returned scalar value. -/
theorem utf8DecodeOne_sound (bs : List Nat) (c : Nat) (rest : List Nat)
    (h : utf8DecodeOne bs = some (c, rest)) :
    IsScalar c ∧ bs = utf8EncodeChar c ++ rest := by
  cases bs with
  | nil => simp [utf8DecodeOne] at h
  | cons b0 tl =>
    by_cases h0 : b0 < 0x80
    · simp [utf8DecodeOne, h0] at h
      obtain ⟨rfl, rfl⟩ := h
      refine ⟨by simp only [IsScalar]; omega, ?_⟩
      simp [utf8EncodeChar, h0]
    · by_cases h1 : b0 < 0xC0
      · simp [utf8DecodeOne, h0, h1] at h
      · by_cases h2 : b0 < 0xE0
        · cases tl with
          | nil => simp [utf8DecodeOne, h0, h1, h2] at h
          | cons b1 tl1 =>
            by_cases hc : 0x80 ≤ b1 ∧ b1 < 0xC0 ∧ 0x80 ≤ (b0 - 0xC0) * 64 + (b1 - 0x80)
            · simp [utf8DecodeOne, h0, h1, h2, hc] at h
              obtain ⟨rfl, rfl⟩ := h
              obtain ⟨k1, k2, k3⟩ := hc
              refine ⟨by simp only [IsScalar]; omega, ?_⟩
              have e0 : ¬ (b0 - 0xC0) * 64 + (b1 - 0x80) < 0x80 := by omega
              have e1 : (b0 - 0xC0) * 64 + (b1 - 0x80) < 0x800 := by omega
              simp [utf8EncodeChar, e0, e1]
              omega
            · simp [utf8DecodeOne, h0, h1, h2, hc] at h
        · by_cases h3 : b0 < 0xF0
          · cases tl with
            | nil => simp [utf8DecodeOne, h0, h1, h2, h3] at h
            | cons b1 tl' =>
              cases tl' with
              | nil => simp [utf8DecodeOne, h0, h1, h2, h3] at h
              | cons b2 tl2 =>
                by_cases hc : 0x80 ≤ b1 ∧ b1 < 0xC0 ∧ 0x80 ≤ b2 ∧ b2 < 0xC0 ∧
                    0x800 ≤ (b0 - 0xE0) * 4096 + (b1 - 0x80) * 64 + (b2 - 0x80) ∧
                    ((b0 - 0xE0) * 4096 + (b1 - 0x80) * 64 + (b2 - 0x80) < 0xD800 ∨
                      0xE000 ≤ (b0 - 0xE0) * 4096 + (b1 - 0x80) * 64 + (b2 - 0x80))
                · simp [utf8DecodeOne, h0, h1, h2, h3, hc] at h
                  obtain ⟨rfl, rfl⟩ := h
                  obtain ⟨k1, k2, k3, k4, k5, k6⟩ := hc
                  refine ⟨by simp only [IsScalar]; omega, ?_⟩
                  have e0 : ¬ (b0 - 0xE0) * 4096 + (b1 - 0x80) * 64 + (b2 - 0x80) < 0x80 := by omega
                  have e1 : ¬ (b0 - 0xE0) * 4096 + (b1 - 0x80) * 64 + (b2 - 0x80) < 0x800 := by omega
                  have e2 : (b0 - 0xE0) * 4096 + (b1 - 0x80) * 64 + (b2 - 0x80) < 0x10000 := by omega
                  simp [utf8EncodeChar, e0, e1, e2]
                  omega
                · simp [utf8DecodeOne, h0, h1, h2, h3, hc] at h
          · by_cases h4 : b0 < 0xF5
            · cases tl with
              | nil => simp [utf8DecodeOne, h0, h1, h2, h3, h4] at h
              | cons b1 tl' =>
                cases tl' with
                | nil => simp [utf8DecodeOne, h0, h1, h2, h3, h4] at h
                | cons b2 tl'' =>
                  cases tl'' with
                  | nil => simp [utf8DecodeOne, h0, h1, h2, h3, h4] at h
                  | cons b3 tl3 =>
                    by_cases hc : 0x80 ≤ b1 ∧ b1 < 0xC0 ∧ 0x80 ≤ b2 ∧ b2 < 0xC0 ∧
                        0x80 ≤ b3 ∧ b3 < 0xC0 ∧
                        0x10000 ≤ (b0 - 0xF0) * 262144 + (b1 - 0x80) * 4096 + (b2 - 0x80) * 64 + (b3 - 0x80) ∧
                        (b0 - 0xF0) * 262144 + (b1 - 0x80) * 4096 + (b2 - 0x80) * 64 + (b3 - 0x80) < 0x110000
                    · simp [utf8DecodeOne, h0, h1, h2, h3, h4, hc] at h
                      obtain ⟨rfl, rfl⟩ := h
                      obtain ⟨k1, k2, k3, k4, k5, k6, k7, k8⟩ := hc
                      refine ⟨by simp only [IsScalar]; omega, ?_⟩
                      have e0 : ¬ (b0 - 0xF0) * 262144 + (b1 - 0x80) * 4096 + (b2 - 0x80) * 64 + (b3 - 0x80) < 0x80 := by omega
                      have e1 : ¬ (b0 - 0xF0) * 262144 + (b1 - 0x80) * 4096 + (b2 - 0x80) * 64 + (b3 - 0x80) < 0x800 := by omega
                      have e2 : ¬ (b0 - 0xF0) * 262144 + (b1 - 0x80) * 4096 + (b2 - 0x80) * 64 + (b3 - 0x80) < 0x10000 := by omega
                      simp [utf8EncodeChar, e0, e1, e2]
                      omega
                    · simp [utf8DecodeOne, h0, h1, h2, h3, h4, hc] at h
            · simp [utf8DecodeOne, h0, h1, h2, h3, h4] at h

/-- Completeness of the one-character decoder: the UTF-8 encoding of any
scalar value, followed by anything, decodes to that scalar value with the
remainder untouched. -/
theorem utf8DecodeOne_complete (c : Nat) (rest : List Nat) (hc : IsScalar c) :
    utf8DecodeOne (utf8EncodeChar c ++ rest) = some (c, rest) := by
  have hcase : c < 0xD800 ∨ (0xE000 ≤ c ∧ c < 0x110000) := hc
  by_cases r1 : c < 0x80
  · have henc : utf8EncodeChar c = [c] := by
      simp only [utf8EncodeChar]; rw [if_pos r1]
    rw [henc]
    simp [utf8DecodeOne, r1]
  · by_cases r2 : c < 0x800
    · have henc : utf8EncodeChar c = [0xC0 + c / 64, 0x80 + c % 64] := by
        simp only [utf8EncodeChar]; rw [if_neg r1, if_pos r2]
      rw [henc]
      show utf8DecodeOne ((0xC0 + c / 64) :: (0x80 + c % 64) :: rest) = some (c, rest)
      have f1 : ¬ (0xC0 + c / 64) < 0x80 := by omega
      have f2 : ¬ (0xC0 + c / 64) < 0xC0 := by omega
      have f3 : (0xC0 + c / 64) < 0xE0 := by omega
      have g1 : 0x80 ≤ 0x80 + c % 64 := by omega
      have g2 : 0x80 + c % 64 < 0xC0 := by omega
      have g3 : 0x80 ≤ (0xC0 + c / 64 - 0xC0) * 64 + (0x80 + c % 64 - 0x80) := by omega
      have g4 : (0xC0 + c / 64 - 0xC0) * 64 + (0x80 + c % 64 - 0x80) = c := by omega
      simp [utf8DecodeOne, f1, f2, f3, g1, g2, g3, g4]
      omega
    · by_cases r3 : c < 0x10000
      · have henc : utf8EncodeChar c = [0xE0 + c / 4096, 0x80 + c / 64 % 64, 0x80 + c % 64] := by
          simp only [utf8EncodeChar]; rw [if_neg r1, if_neg r2, if_pos r3]
        rw [henc]
        show utf8DecodeOne
            ((0xE0 + c / 4096) :: (0x80 + c / 64 % 64) :: (0x80 + c % 64) :: rest) = some (c, rest)
        have f1 : ¬ (0xE0 + c / 4096) < 0x80 := by omega
        have f2 : ¬ (0xE0 + c / 4096) < 0xC0 := by omega
        have f3 : ¬ (0xE0 + c / 4096) < 0xE0 := by omega
        have f4 : (0xE0 + c / 4096) < 0xF0 := by omega
        have g1 : 0x80 ≤ 0x80 + c / 64 % 64 := by omega
        have g2 : 0x80 + c / 64 % 64 < 0xC0 := by omega
        have g3 : 0x80 ≤ 0x80 + c % 64 := by omega
        have g4 : 0x80 + c % 64 < 0xC0 := by omega
        have gv : (0xE0 + c / 4096 - 0xE0) * 4096 + (0x80 + c / 64 % 64 - 0x80) * 64 +
            (0x80 + c % 64 - 0x80) = c := by omega
        have g5 : 0x800 ≤ (0xE0 + c / 4096 - 0xE0) * 4096 + (0x80 + c / 64 % 64 - 0x80) * 64 +
            (0x80 + c % 64 - 0x80) := by omega
        have g6 : (0xE0 + c / 4096 - 0xE0) * 4096 + (0x80 + c / 64 % 64 - 0x80) * 64 +
            (0x80 + c % 64 - 0x80) < 0xD800 ∨
            0xE000 ≤ (0xE0 + c / 4096 - 0xE0) * 4096 + (0x80 + c / 64 % 64 - 0x80) * 64 +
            (0x80 + c % 64 - 0x80) := by omega
        simp [utf8DecodeOne, f1, f2, f3, f4, g1, g2, g3, g4, g5, g6, gv]
        omega
      · have r4 : 0x10000 ≤ c ∧ c < 0x110000 := by omega
        have henc : utf8EncodeChar c =
            [0xF0 + c / 262144, 0x80 + c / 4096 % 64, 0x80 + c / 64 % 64, 0x80 + c % 64] := by
          simp only [utf8EncodeChar]; rw [if_neg r1, if_neg r2, if_neg r3]
        rw [henc]
        show utf8DecodeOne ((0xF0 + c / 262144) :: (0x80 + c / 4096 % 64) ::
            (0x80 + c / 64 % 64) :: (0x80 + c % 64) :: rest) = some (c, rest)
        have f1 : ¬ (0xF0 + c / 262144) < 0x80 := by omega
        have f2 : ¬ (0xF0 + c / 262144) < 0xC0 := by omega
        have f3 : ¬ (0xF0 + c / 262144) < 0xE0 := by omega
        have f4 : ¬ (0xF0 + c / 262144) < 0xF0 := by omega
        have f5 : (0xF0 + c / 262144) < 0xF5 := by omega
        have g1 : 0x80 ≤ 0x80 + c / 4096 % 64 := by omega
        have g2 : 0x80 + c / 4096 % 64 < 0xC0 := by omega
        have g3 : 0x80 ≤ 0x80 + c / 64 % 64 := by omega
        have g4 : 0x80 + c / 64 % 64 < 0xC0 := by omega
        have g5 : 0x80 ≤ 0x80 + c % 64 := by omega
        have g6 : 0x80 + c % 64 < 0xC0 := by omega
        have gv : (0xF0 + c / 262144 - 0xF0) * 262144 + (0x80 + c / 4096 % 64 - 0x80) * 4096 +
            (0x80 + c / 64 % 64 - 0x80) * 64 + (0x80 + c % 64 - 0x80) = c := by omega
        have g7 : 0x10000 ≤ (0xF0 + c / 262144 - 0xF0) * 262144 +
            (0x80 + c / 4096 % 64 - 0x80) * 4096 +
            (0x80 + c / 64 % 64 - 0x80) * 64 + (0x80 + c % 64 - 0x80) := by omega
        have g8 : (0xF0 + c / 262144 - 0xF0) * 262144 + (0x80 + c / 4096 % 64 - 0x80) * 4096 +
            (0x80 + c / 64 % 64 - 0x80) * 64 + (0x80 + c % 64 - 0x80) < 0x110000 := by omega
        simp [utf8DecodeOne, f1, f2, f3, f4, f5, g1, g2, g3, g4, g5, g6, g7, g8, gv]
        omega

/-- The UTF-8 encoding of a scalar value is never empty. -/
theorem utf8EncodeChar_length_pos (c : Nat) : 0 < (utf8EncodeChar c).length := by
  simp only [utf8EncodeChar]
  split
  · simp
  · split
    · simp
    · split
      · simp
      · simp

/-- Soundness of the fuel-indexed decoder: a successful decode inverts the
encoder and produces only scalar values, for any fuel. -/
theorem utf8DecodeAux_sound :
    ∀ (fuel : Nat) (bs s : List Nat), utf8DecodeAux fuel bs = some s →
      utf8Encode s = bs ∧ ∀ c ∈ s, IsScalar c := by
  intro fuel
  induction fuel with
  | zero =>
    intro bs s h
    cases bs with
    | nil =>
      simp [utf8DecodeAux] at h
      subst h
      exact ⟨rfl, by simp⟩
    | cons b tl => simp [utf8DecodeAux] at h
  | succ n ih =>
    intro bs s h
    cases bs with
    | nil =>
      simp [utf8DecodeAux] at h
      subst h
      exact ⟨rfl, by simp⟩
    | cons b tl =>
      rw [utf8DecodeAux] at h
      cases hd : utf8DecodeOne (b :: tl) with
      | none => rw [hd] at h; simp at h
      | some pr =>
        obtain ⟨c, rest⟩ := pr
        rw [hd] at h
        simp only [Option.map_eq_some'] at h
        obtain ⟨s', hs', rfl⟩ := h
        obtain ⟨he, hsc⟩ := ih rest s' hs'
        obtain ⟨hscal, hbs⟩ := utf8DecodeOne_sound _ _ _ hd
        refine ⟨?_, ?_⟩
        · rw [utf8Encode, he]
          exact hbs.symm
        · intro x hx
          rcases List.mem_cons.mp hx with rfl | hx'
          · exact hscal
          · exact hsc x hx'

/-- Completeness of the fuel-indexed decoder: the encoding of a sequence
of scalar values decodes back to it whenever the fuel is at least the byte
length. -/
theorem utf8DecodeAux_complete :
    ∀ s : List Nat, (∀ c ∈ s, IsScalar c) →
      ∀ fuel : Nat, (utf8Encode s).length ≤ fuel →
        utf8DecodeAux fuel (utf8Encode s) = some s := by
  intro s
  induction s with
  | nil =>
    intro _ fuel _
    cases fuel <;> simp [utf8Encode, utf8DecodeAux]
  | cons c s' ih =>
    intro hsc fuel hfuel
    have hc : IsScalar c := hsc c (List.mem_cons_self c s')
    have hs' : ∀ x ∈ s', IsScalar x := fun x hx => hsc x (List.mem_cons_of_mem c hx)
    have hpos := utf8EncodeChar_length_pos c
    have hlen : (utf8Encode (c :: s')).length =
        (utf8EncodeChar c).length + (utf8Encode s').length := by
      rw [utf8Encode, List.length_append]
    cases fuel with
    | zero => omega
    | succ n =>
      obtain ⟨d, ds, hds⟩ : ∃ d ds, utf8EncodeChar c = d :: ds := by
        cases hE : utf8EncodeChar c with
        | nil => rw [hE] at hpos; simp at hpos
        | cons d ds => exact ⟨d, ds, rfl⟩
      have hshape : utf8Encode (c :: s') = d :: (ds ++ utf8Encode s') := by
        rw [utf8Encode, hds]
        rfl
      rw [hshape, utf8DecodeAux]
      have hone : utf8DecodeOne (d :: (ds ++ utf8Encode s')) = some (c, utf8Encode s') := by
        have := utf8DecodeOne_complete c (utf8Encode s') hc
        rw [hds] at this
        simpa using this
      rw [hone]
      have hrec : utf8DecodeAux n (utf8Encode s') = some s' := by
        apply ih hs' n
        omega
      simp [hrec]

/-! ## Claims about `read_txt` -/

/-- C5: `read_txt` succeeds exactly on the byte sequences that are valid
UTF-8, and on success it returns exactly the UTF-8 decoding of the input:
the output is a sequence of scalar values whose UTF-8 encoding is the
input itself.  On every invalid byte sequence it fails (raises). -/
theorem read_txt_utf8 (b : List Nat) :
    (∀ s, read_txt b = some s → utf8Encode s = b ∧ ∀ c ∈ s, IsScalar c) ∧
    ((read_txt b).isSome ↔ ValidUtf8 b) := by
  refine ⟨fun s h => utf8DecodeAux_sound b.length b s h, ?_, ?_⟩
  · intro h
    obtain ⟨s, hs⟩ := Option.isSome_iff_exists.mp h
    obtain ⟨he, hsc⟩ := utf8DecodeAux_sound b.length b s hs
    exact ⟨s, hsc, he⟩
  · rintro ⟨s, hsc, rfl⟩
    have hcomp := utf8DecodeAux_complete s hsc (utf8Encode s).length le_rfl
    simp [read_txt, utf8Decode, hcomp]

/-- C5 (witness): the bytes `[0x48, 0xC3, 0xA9]` decode to the code
points of `"Hé"` and re-encode to the same bytes. -/
theorem read_txt_utf8_witness :
    utf8Encode [72, 233] = [72, 195, 169] ∧ ∀ c ∈ [72, 233], IsScalar c :=
  (read_txt_utf8 [72, 195, 169]).1 [72, 233] (by decide)

/-- C6: `read_txt` is lossless and idempotent on its successes:
re-encoding the decoded text as UTF-8 bytes and extracting again yields
the same text. -/
theorem read_txt_lossless_idempotent (b s : List Nat) (h : read_txt b = some s) :
    utf8Encode s = b ∧ read_txt (utf8Encode s) = some s := by
  obtain ⟨he, hsc⟩ := utf8DecodeAux_sound b.length b s h
  refine ⟨he, ?_⟩
  have hcomp := utf8DecodeAux_complete s hsc (utf8Encode s).length le_rfl
  simp [read_txt, utf8Decode, hcomp]

/-- C6 (witness): round trip on the concrete bytes of `"Hé"`. -/
theorem read_txt_lossless_idempotent_witness :
    read_txt (utf8Encode [72, 233]) = some [72, 233] :=
  (read_txt_lossless_idempotent [72, 195, 169] [72, 233] (by decide)).2
